import Mathlib

/-!
Shallow embedding of the shikor-headless storage-strategy core:
the connection lifecycle with retry/backoff (PostgresStrategy / MongoStrategy
`connectWithRetry`), the event-emitter subscription surface (`on`), health
checks, the mock in-memory strategy's CRUD operations, the configuration
schema registry with its resolver and validator (`Config`), and the
`DatabaseStrategyFactory`.  JavaScript runtime values are modelled by the
inductive `Value`; JS objects and `Map`s by insertion-ordered association
lists.  Where the repository holds several draft revisions of a file, the
final revision (the one carrying the schema/validation and duplicate-
registration logic) is the one embedded.
-/

namespace Shikor

/-- JS runtime values as they occur in configs and records.  `numNaN` stands
for the JS `NaN` (whose `typeof` is still `"number"`); `undefined` for
`undefined`. -/
inductive Value where
  | str (s : String)
  | num (n : Int)
  | numNaN
  | bool (b : Bool)
  | undefined
deriving DecidableEq, Repr

/-- `ConnectionStatus` from `IDatabaseStrategy`. -/
inductive ConnectionStatus where
  | connecting
  | ready
  | error
deriving DecidableEq, Repr

instance {ε α : Type} [DecidableEq ε] [DecidableEq α] :
    DecidableEq (Except ε α) := fun x y =>
  match x, y with
  | .ok a, .ok b =>
      if h : a = b then .isTrue (by rw [h])
      else .isFalse (by intro hc; cases hc; exact h rfl)
  | .ok _, .error _ => .isFalse (by intro hc; cases hc)
  | .error _, .ok _ => .isFalse (by intro hc; cases hc)
  | .error e, .error f =>
      if h : e = f then .isTrue (by rw [h])
      else .isFalse (by intro hc; cases hc; exact h rfl)

/-- Observable outcome of one `connect()` call: how many connection attempts
ran, the backoff delay (in ms) slept before each retry, the final `status`
field, and the surfaced result (`.error e` models the rethrown transport
error). -/
structure ConnOutcome where
  attempts : Nat
  delays : List Nat
  status : ConnectionStatus
  result : Except String Unit
deriving DecidableEq, Repr

/-- `PostgresStrategy.connectWithRetry` / `MongoStrategy.connectWithRetry`:
try one attempt; on failure, while `retryCount < maxRetries`, increment
`retryCount`, sleep `2 ^ retryCount * 100` ms and recurse; once retries are
exhausted set `status = error` and rethrow the transport error.  `attempt i`
is the transport's response to the attempt made with `retryCount = i`;
`remaining = maxRetries - retryCount` (the guard `retryCount < maxRetries`
holds iff `remaining > 0`). -/
def connectLoop (attempt : Nat → Except String Unit) :
    Nat → Nat → ConnOutcome
  | retryCount, remaining =>
    match attempt retryCount with
    | .ok _ =>
        { attempts := 1, delays := [], status := .ready, result := .ok () }
    | .error e =>
        match remaining with
        | 0 =>
            { attempts := 1, delays := [], status := .error,
              result := .error e }
        | r + 1 =>
            let rest := connectLoop attempt (retryCount + 1) r
            { attempts := rest.attempts + 1
              delays := 2 ^ (retryCount + 1) * 100 :: rest.delays
              status := rest.status
              result := rest.result }

/-- `connect()` starts the retry chain with `retryCount = 0`. -/
def connectWithRetry (attempt : Nat → Except String Unit)
    (maxRetries : Nat) : ConnOutcome :=
  connectLoop attempt 0 maxRetries

/-- State of one strategy's `EventEmitter` together with an invocation log:
`listeners` holds `(event, handlerId)` pairs in registration order, `invoked`
the ids of handlers called so far, in call order. -/
structure EmitterState where
  listeners : List (String × Nat)
  invoked : List Nat
deriving DecidableEq, Repr

def initEmitter : EmitterState := { listeners := [], invoked := [] }

/-- `on(event, listener)` of PostgresStrategy, MongoStrategy and
SqliteStrategy: delegates to `EventEmitter.on`, which appends the listener
and calls nothing. -/
def emitterOn (ev : String) (handler : Nat) (s : EmitterState) :
    EmitterState :=
  { s with listeners := s.listeners ++ [(ev, handler)] }

/-- `emitter.emit(event)`: invokes, in registration order, every listener
currently registered for `event`. -/
def emitterEmit (ev : String) (s : EmitterState) : EmitterState :=
  { s with invoked :=
      s.invoked ++ (s.listeners.filter (fun p => p.1 == ev)).map (·.2) }

/-- `MockDatabaseStrategy.on`: ignores the event name, invokes the listener
immediately, and registers nothing. -/
def mockOn (_ev : String) (handler : Nat) (s : EmitterState) :
    EmitterState :=
  { s with invoked := s.invoked ++ [handler] }

/-- Result of `healthCheck()`: `{ ok, latency }`. -/
structure HealthResult where
  ok : Bool
  latency : Int
deriving DecidableEq, Repr

/-- `PostgresStrategy.healthCheck` (part_009 revision): runs
`pool.query("SELECT 1")`; a probe error, or a row count other than 1, is
caught and reported as `ok := false` — the function itself never throws.
`probe` is the backend's response (`.ok rowCount` or a transport error);
latency is `Date.now() - start`, modelled by the two clock readings. -/
def pgHealthCheck (probe : Except String Nat) (startTime endTime : Int) :
    HealthResult :=
  match probe with
  | .ok rowCount =>
      if rowCount ≠ 1 then { ok := false, latency := endTime - startTime }
      else { ok := true, latency := endTime - startTime }
  | .error _ => { ok := false, latency := endTime - startTime }

/-- `SqliteStrategy.healthCheck`: runs `SELECT 1`, catches any error and
reports `ok := false` with measured latency; never throws. -/
def sqliteHealthCheck (probe : Except String Unit) (startTime endTime : Int) :
    HealthResult :=
  match probe with
  | .ok _ => { ok := true, latency := endTime - startTime }
  | .error _ => { ok := false, latency := endTime - startTime }

/-- A stored record / JS object: insertion-ordered key-value pairs. -/
abbrev Record : Type := List (String × Value)

/-- `item[key]`: a missing property reads as `undefined`. -/
def getField (r : Record) (k : String) : Value :=
  (r.lookup k).getD .undefined

/-- `{...data, key: v}`: the spread copy with property `key` set — an
existing property keeps its position and is overwritten, a new one is
appended. -/
def jsSetField (r : Record) (k : String) (v : Value) : Record :=
  if r.any (fun p => p.1 == k) then
    r.map (fun p => if p.1 == k then (p.1, v) else p)
  else r ++ [(k, v)]

/-- JS-object-as-map update `obj[k] = v`: overwrite in place or append. -/
def mapSet {α : Type} (l : List (String × α)) (k : String) (v : α) :
    List (String × α) :=
  if l.any (fun p => p.1 == k) then
    l.map (fun p => if p.1 == k then (p.1, v) else p)
  else l ++ [(k, v)]

/-- The mock strategy's in-memory store `this.db`: collection name →
records in insertion order. -/
abbrev MockDb : Type := List (String × List Record)

/-- `this.db[collection] || []`. -/
def dbGet (db : MockDb) (c : String) : List Record :=
  (db.lookup c).getD []

/-- `MockDatabaseStrategy.create`: assigns
`id := this.db[collection].length + 1` via `{...data, id}` and pushes the
item; returns the stored item. -/
def mockCreate (db : MockDb) (c : String) (data : Record) :
    MockDb × Record :=
  let existing := dbGet db c
  let item := jsSetField data "id" (.num (existing.length + 1))
  (mapSet db c (existing ++ [item]), item)

/-- `QueryOptions.sort`: `{ field, order? }`. -/
structure SortSpec where
  field : String
  order : Option String
deriving DecidableEq, Repr

/-- `QueryOptions`: optional sort, limit, offset. -/
structure QueryOptions where
  sort : Option SortSpec := none
  limit : Option Int := none
  offset : Option Int := none
deriving DecidableEq, Repr

/-- `BaseDatabaseStrategy.validateQueryOptions`: throws (here: returns
`some message`) on a limit outside 0–1000, a negative offset, a sort with a
falsy (empty) field, or a sort order other than `"asc"`/`"desc"`. -/
def validateQueryOptions (o : QueryOptions) : Option String :=
  if (match o.limit with
      | some l => decide (l < 0) || decide (l > 1000)
      | none => false) then
    some "Invalid limit: must be between 0 and 1000"
  else if (match o.offset with
      | some off => decide (off < 0)
      | none => false) then
    some "Invalid offset: must be >= 0"
  else
    match o.sort with
    | some srt =>
        if srt.field == "" then some "Invalid sort options: missing field"
        else
          match srt.order with
          | some ord =>
              if ord == "asc" || ord == "desc" then none
              else some "Invalid sort options: order must be asc or desc"
          | none => none
    | none => none

/-- JS `<` on the values the mock comparator sees, restricted to same-typed
operands (mixed-type or NaN comparisons are `false`, as in JS). -/
def valueLt : Value → Value → Bool
  | .num a, .num b => a < b
  | .str a, .str b => a < b
  | .bool a, .bool b => !a && b
  | _, _ => false

/-- The mock `read` sort comparator
`a[field] < b[field] ? (asc ? -1 : 1) : a[field] > b[field] ? (asc ? 1 : -1) : 0`,
rendered as a not-greater test for a stable sort (V8's `Array.prototype.sort`
is stable). -/
def mockSortLe (field : String) (order : Option String) (a b : Record) :
    Bool :=
  let av := getField a field
  let bv := getField b field
  if order == some "asc" then !valueLt bv av else !valueLt av bv

/-- The equality conjunction
`Object.keys(query).every((key) => item[key] === query[key])`. -/
def matchesFilter (item : Record) (query : Record) : Bool :=
  (query : List (String × Value)).all (fun kv => getField item kv.1 == kv.2)

/-- `MockDatabaseStrategy.read`: validate options (throwing before any data
access), filter by the equality conjunction, sort if requested, then apply
`slice(offset)` and `slice(0, limit)` in that order. -/
def mockRead (db : MockDb) (c : String) (query : Record)
    (options : QueryOptions) : Except String (List Record) :=
  match validateQueryOptions options with
  | some e => .error e
  | none =>
      let results :=
        (dbGet db c).filter (fun item => matchesFilter item query)
      let results :=
        match options.sort with
        | some srt => results.mergeSort (mockSortLe srt.field srt.order)
        | none => results
      let results :=
        match options.offset with
        | some off => results.drop off.toNat
        | none => results
      let results :=
        match options.limit with
        | some l => results.take l.toNat
        | none => results
      .ok results

/-- `ConfigFieldType` from `config/types.ts`. -/
inductive FieldType where
  | string
  | number
  | boolean
  | secret
  | custom
deriving DecidableEq, Repr

/-- A raw config object as passed to `Config.validate`:
module name → key → value. -/
abbrev RawConfig : Type := List (String × List (String × Value))

/-- `ConfigFieldDefinition`, restricted to the members the embedded
operations read (`description`, `environments`, `group`, `visibleTo` and
`version` are presentation-only and never touched by the resolver, the
validator or the factory). -/
structure FieldDef where
  key : String
  type : FieldType
  default : Option Value := none
  envVar : Option String := none
  requiredIf : Option (RawConfig → Bool) := none

/-- `ModuleConfigSchema`: field key → definition, insertion-ordered. -/
abbrev ModuleSchema : Type := List (String × FieldDef)

/-- The `Config.schemaRegistry` map: module name → schema. -/
abbrev Registry : Type := List (String × ModuleSchema)

/-- `Config.registerModuleSchema`: `Map.set` stores or overwrites. -/
def registerModuleSchema (reg : Registry) (m : String)
    (schema : ModuleSchema) : Registry :=
  mapSet reg m schema

/-- `Config.getModuleSchema`. -/
def getModuleSchema (reg : Registry) (m : String) : Option ModuleSchema :=
  reg.lookup m

/-- `Config.getAllSchemas`: all registry entries in insertion order. -/
def getAllSchemas (reg : Registry) : Registry := reg

/-- `rawConfig?.[module]?.[key]`, reading `undefined` for anything absent. -/
def rawGet (raw : RawConfig) (m k : String) : Value :=
  (((raw.lookup m).getD []).lookup k).getD .undefined

/-- What the zod base schema built by `Config.validate` accepts:
`z.string()` / `z.number()` / `z.boolean()` / `z.string()` for `secret` /
`z.any()` for `custom`.  zod classifies `NaN` as its own parsed type, so
`z.number()` rejects it; `z.any()` accepts everything, `undefined`
included. -/
def zodBaseAccepts : FieldType → Value → Bool
  | .string, .str _ => true
  | .number, .num _ => true
  | .boolean, .bool _ => true
  | .secret, .str _ => true
  | .custom, _ => true
  | _, _ => false

/-- `def.requiredIf && def.requiredIf(rawConfig)`. -/
def requiredIfHolds (d : FieldDef) (raw : RawConfig) : Bool :=
  match d.requiredIf with
  | some p => p raw
  | none => false

/-- The required-field message `[module] "key" is required`. -/
def requiredMsg (m k : String) : String :=
  "[" ++ m ++ "] \"" ++ k ++ "\" is required"

/-- The type-violation message `[module] "key": <zod error>` (the zod error
text is abstracted to a fixed description). -/
def typeMsg (m k : String) : String :=
  "[" ++ m ++ "] \"" ++ k ++ "\": invalid type"

/-- Per-field outcome of the `Config.validate` loop body, stated
declaratively: a required-field message when `requiredIf` holds on the raw
config and the value is undefined (the loop then `continue`s); otherwise a
type message exactly when the zod check fails, where the schema is made
`.optional()` — additionally accepting `undefined` — iff the field declares
a `default`. -/
def violationMsg (raw : RawConfig) (m k : String) (d : FieldDef) :
    Option String :=
  let value := rawGet raw m k
  if requiredIfHolds d raw && value == .undefined then
    some (requiredMsg m k)
  else if (d.default.isSome && value == .undefined) || zodBaseAccepts d.type value
    then none
  else some (typeMsg m k)

/-- All violation messages, one per violated field, in registry and schema
order. -/
def allViolations (reg : Registry) (raw : RawConfig) : List String :=
  (getAllSchemas reg).flatMap fun e => e.2.filterMap fun kv =>
    violationMsg raw e.1 kv.1 kv.2

/-- The result shape of `Config.validate`:
`{ success: false, errors }` or `{ success: true }`. -/
structure ValidationResult where
  success : Bool
  errors : Option (List String)
deriving DecidableEq, Repr

/-- The body of the `Config.validate` field loop: push the required-field
message and `continue` when `requiredIf` holds on the raw config and the
value is undefined; otherwise run the zod check — the schema being made
`.optional()` when the field declares a `default` — and push the type
message on rejection. -/
def validateFieldStep (raw : RawConfig) (m : String) (errs : List String)
    (kv : String × FieldDef) : List String :=
  let value := rawGet raw m kv.1
  if requiredIfHolds kv.2 raw && value == .undefined then
    errs ++ [requiredMsg m kv.1]
  else if (kv.2.default.isSome && value == .undefined)
      || zodBaseAccepts kv.2.type value then errs
  else errs ++ [typeMsg m kv.1]

/-- `Config.validate`: iterate every registered module schema (not only the
modules present in `rawConfig`), accumulate error messages field by field,
and return `{success:false, errors}` when anything accumulated, else
`{success:true}`. -/
def validate (reg : Registry) (raw : RawConfig) : ValidationResult :=
  let errors :=
    (getAllSchemas reg).foldl
      (fun errs entry => entry.2.foldl (validateFieldStep raw entry.1) errs)
      []
  if errors.length > 0 then { success := false, errors := some errors }
  else { success := true, errors := none }

/-- JS `Number(s)` restricted to the integer literals the schemas use: an
integer string parses, the empty (or all-whitespace) string is `0`, anything
else is `NaN`. -/
def jsToNumber (s : String) : Value :=
  match s.toInt? with
  | some n => .num n
  | none => if s.trim == "" then .num 0 else .numNaN

/-- The coercion `switch (field.type)` of `loadResolvedConfigForModule` /
`getDatabaseConfigFromEnv`: `number` → `Number(raw)`, `boolean` →
`raw === "true"`, `secret`/`string`/`custom`/default → the raw string. -/
def coerceEnvValue (t : FieldType) (raw : String) : Value :=
  match t with
  | .number => jsToNumber raw
  | .boolean => .bool (raw == "true")
  | _ => .str raw

/-- `const rawValue = envKey && process.env[envKey]`: `undefined` when
`envVar` is absent or the environment lacks the variable; the falsy empty
`envVar` string short-circuits to itself (a defined value). -/
def envRawValue (d : FieldDef) (env : String → Option String) :
    Option String :=
  match d.envVar with
  | none => none
  | some ek => if ek == "" then some "" else env ek

/-- `loadResolvedConfigForModule`: look up the module schema (throwing when
unregistered), then per field take the coerced environment value when
defined, else the declared default, else `undefined`. -/
def loadResolvedConfigForModule (reg : Registry)
    (env : String → Option String) (engine : String) :
    Except String (List (String × Value)) :=
  match getModuleSchema reg engine with
  | none => .error ("Schema not found for module " ++ engine)
  | some schema =>
      .ok (schema.map fun kv =>
        match envRawValue kv.2 env with
        | some s => (kv.1, coerceEnvValue kv.2.type s)
        | none =>
            match kv.2.default with
            | some dflt => (kv.1, dflt)
            | none => (kv.1, Value.undefined))

/-- `typeof`-level agreement between a resolved value and the field's
declared type, as §8 of the spec demands: strings for `string`/`secret`,
numbers (`NaN` included) for `number`, booleans for `boolean`; `custom`
accepts any value. -/
def runtimeTypeMatches : FieldType → Value → Bool
  | .string, .str _ => true
  | .secret, .str _ => true
  | .number, .num _ => true
  | .number, .numNaN => true
  | .boolean, .bool _ => true
  | .custom, _ => true
  | _, _ => false

/-- Errors of `DatabaseStrategyFactory.createBuiltinStrategy`. -/
inductive FactoryError where
  | missingSchema (engine : String)
  | invalidConfig (engine : String) (errors : List String)
  | unregisteredCustom (engine : String)
  | invalidName (engine : String)
  | duplicateRegistration (engine : String)
deriving DecidableEq, Repr

/-- A constructed strategy instance — construction (and the backend
connection the constructor opens) only ever happens on the success path, so
the construction event is recorded alongside the result. -/
structure BuiltInstance where
  engine : String
deriving DecidableEq, Repr

/-- `DatabaseStrategyFactory.createBuiltinStrategy` (part_013 final
revision): fail with a missing-schema error when the engine has no
registered field schema; validate `{ [engine]: config }` and fail with a
config-validation error carrying every collected message when invalid; only
then call the builtin constructor.  The second component lists the engines
actually constructed (empty on both failure paths: no backend call). -/
def createBuiltinStrategy (reg : Registry) (engine : String)
    (config : List (String × Value)) :
    Except FactoryError BuiltInstance × List String :=
  match getModuleSchema reg engine with
  | none => (.error (.missingSchema engine), [])
  | some _ =>
      let result := validate reg [(engine, config)]
      if result.success then (.ok { engine := engine }, [engine])
      else (.error (.invalidConfig engine (result.errors.getD [])), [])

/-- `CustomStrategyConfig`: the constructor and the optional validator and
schema are opaque JS references, modelled by identifiers (no claim runs
them). -/
structure CustomStrategyConfig where
  strategyClass : Nat
  configValidator : Option Nat := none
  configSchema : Option Nat := none
deriving DecidableEq, Repr

/-- `DatabaseStrategyFactory.customStrategies`, the custom-engine map. -/
abbrev CustomRegistry : Type := List (String × CustomStrategyConfig)

/-- The builtin constructor table's keys (part_013 final revision). -/
def builtinEngines : List String := ["mock", "postgres", "mongo"]

/-- JS `String.prototype.startsWith`, spelled over the character lists so
that it computes by kernel reduction. -/
def jsStartsWith (s pre : String) : Bool :=
  pre.data.isPrefixOf s.data

/-- `DatabaseStrategyFactory.hasEngine`. -/
def hasEngine (customs : CustomRegistry) (engine : String) : Bool :=
  if jsStartsWith engine "custom:" then (customs.lookup engine).isSome
  else builtinEngines.contains engine

/-- `DatabaseStrategyFactory.registerCustomEngine` (part_013 final
revision): reject a name without the `custom:` tag, reject an
already-registered name, otherwise store the registration. -/
def registerCustomEngine (customs : CustomRegistry) (engine : String)
    (cfg : CustomStrategyConfig) : Except FactoryError CustomRegistry :=
  if ¬ jsStartsWith engine "custom:" then .error (.invalidName engine)
  else if hasEngine customs engine then
    .error (.duplicateRegistration engine)
  else .ok (mapSet customs engine cfg)

/-- A string field with neither default nor `envVar`, as the spec's
`FieldDefinition` invariant explicitly contemplates. -/
def sampleFieldString : FieldDef := { key := "k", type := .string }

/-- A one-module registry used to exercise the validator and resolver. -/
def sampleRegistry : Registry := [("m", [("k", sampleFieldString)])]

/-- A registry whose only module carries a `custom`-typed field with no
default. -/
def customFieldRegistry : Registry :=
  [("other", [("f", { key := "f", type := FieldType.custom })])]

/-- A registry with a required string field under module `other`. -/
def otherModuleRegistry : Registry :=
  [("other", [("req", { key := "req", type := FieldType.string })])]

/-- A small postgres-like schema with environment-backed fields. -/
def samplePgSchema : ModuleSchema :=
  [("host", { key := "host", type := FieldType.string,
              envVar := some "POSTGRES_HOST" }),
   ("port", { key := "port", type := FieldType.number,
              default := some (.num 5432),
              envVar := some "POSTGRES_PORT" })]

/-- A registry holding only `samplePgSchema`. -/
def samplePgRegistry : Registry := [("postgres", samplePgSchema)]

/-- A sample environment defining only `POSTGRES_HOST`. -/
def sampleEnv : String → Option String := fun k =>
  if k == "POSTGRES_HOST" then some "localhost" else none

theorem validateFieldStep_eq (raw : RawConfig) (m : String)
    (errs : List String) (kv : String × FieldDef) :
    validateFieldStep raw m errs kv =
      errs ++ (violationMsg raw m kv.1 kv.2).toList := by
  simp only [validateFieldStep, violationMsg]
  split
  · simp
  · split <;> simp

theorem fieldLoop_eq (raw : RawConfig) (m : String) :
    ∀ (fields : ModuleSchema) (acc : List String),
      fields.foldl (validateFieldStep raw m) acc =
        acc ++ fields.filterMap (fun kv => violationMsg raw m kv.1 kv.2) := by
  intro fields
  induction fields with
  | nil => intro acc; simp
  | cons kv rest ih =>
      intro acc
      rw [List.foldl_cons, validateFieldStep_eq, ih, List.filterMap_cons]
      cases violationMsg raw m kv.1 kv.2 <;> simp

theorem moduleLoop_eq (raw : RawConfig) :
    ∀ (reg : Registry) (acc : List String),
      reg.foldl
          (fun errs entry => entry.2.foldl (validateFieldStep raw entry.1) errs)
          acc =
        acc ++ reg.flatMap
          (fun e => e.2.filterMap fun kv => violationMsg raw e.1 kv.1 kv.2) := by
  intro reg
  induction reg with
  | nil => intro acc; simp
  | cons entry rest ih =>
      intro acc
      rw [List.foldl_cons, fieldLoop_eq, ih, List.flatMap_cons,
        List.append_assoc]

theorem validate_eq (reg : Registry) (raw : RawConfig) :
    validate reg raw =
      (if (allViolations reg raw).length > 0 then
        { success := false, errors := some (allViolations reg raw) }
      else { success := true, errors := none }) := by
  unfold validate
  rw [moduleLoop_eq]
  rfl

theorem violation_mem_allViolations (reg : Registry) (raw : RawConfig)
    (m : String) (schema : ModuleSchema) (k : String) (d : FieldDef)
    (e : String) (hm : (m, schema) ∈ reg) (hk : (k, d) ∈ schema)
    (hv : violationMsg raw m k d = some e) : e ∈ allViolations reg raw := by
  unfold allViolations getAllSchemas
  refine List.mem_flatMap.mpr ⟨(m, schema), hm, ?_⟩
  exact List.mem_filterMap.mpr ⟨(k, d), hk, hv⟩

/-- C1: with `maxRetries = 3` and a transport that fails every attempt,
`connect` performs exactly 4 connection attempts (1 initial + 3 retries),
sleeping `2 ^ k * 100` time units before the k-th retry (geometrically
increasing), and then surfaces the underlying transport error (the one the
final attempt raised) to the caller of `connect`/readiness, leaving
`status = error`. -/
theorem connect_retry_exhaustion (attempt : Nat → Except String Unit)
    (errs : Nat → String) (h : ∀ i, attempt i = .error (errs i)) :
    (connectWithRetry attempt 3).attempts = 4 ∧
    (connectWithRetry attempt 3).delays =
      [2 ^ 1 * 100, 2 ^ 2 * 100, 2 ^ 3 * 100] ∧
    (connectWithRetry attempt 3).status = .error ∧
    (connectWithRetry attempt 3).result = .error (errs 3) := by
  simp [connectWithRetry, connectLoop, h]

/-- Witness for `connect_retry_exhaustion` at a concrete always-failing
transport. -/
theorem connect_retry_exhaustion_witness :
    (connectWithRetry (fun _ => .error "ECONNREFUSED") 3).attempts = 4 ∧
    (connectWithRetry (fun _ => .error "ECONNREFUSED") 3).delays =
      [2 ^ 1 * 100, 2 ^ 2 * 100, 2 ^ 3 * 100] ∧
    (connectWithRetry (fun _ => .error "ECONNREFUSED") 3).status = .error ∧
    (connectWithRetry (fun _ => .error "ECONNREFUSED") 3).result =
      .error "ECONNREFUSED" :=
  connect_retry_exhaustion (fun _ => .error "ECONNREFUSED")
    (fun _ => "ECONNREFUSED") (fun _ => rfl)

/-- C9: `healthCheck` never throws — in the embedding it is a total
function into `HealthResult`, the TS `catch` having swallowed every probe
failure — and in any lifecycle state it reports a measured latency
`endTime - startTime` (non-negative under clock monotonicity) together with
an `ok` flag; on a never-connected relational strategy the probe fails, and
the result is `ok := false` rather than an exception.  Both the
Postgres (part_009 revision) and the Sqlite health checks are covered. -/
theorem healthCheck_never_throws (probe : Except String Nat)
    (probe2 : Except String Unit) (t0 t1 : Int) (h : t0 ≤ t1) :
    ((pgHealthCheck probe t0 t1).latency = t1 - t0 ∧
      0 ≤ (pgHealthCheck probe t0 t1).latency ∧
      ∀ e, probe = .error e → (pgHealthCheck probe t0 t1).ok = false) ∧
    ((sqliteHealthCheck probe2 t0 t1).latency = t1 - t0 ∧
      0 ≤ (sqliteHealthCheck probe2 t0 t1).latency ∧
      ∀ e, probe2 = .error e →
        (sqliteHealthCheck probe2 t0 t1).ok = false) := by
  have hlat : (0 : Int) ≤ t1 - t0 := by omega
  refine ⟨⟨?_, ?_, ?_⟩, ⟨?_, ?_, ?_⟩⟩
  · cases probe with
    | ok n => by_cases hn : n = 1 <;> simp [pgHealthCheck, hn]
    | error e => simp [pgHealthCheck]
  · cases probe with
    | ok n =>
        by_cases hn : n = 1 <;> simp [pgHealthCheck, hn] <;> omega
    | error e => simp [pgHealthCheck]; omega
  · intro e he
    subst he
    simp [pgHealthCheck]
  · cases probe2 with
    | ok u => simp [sqliteHealthCheck]
    | error e => simp [sqliteHealthCheck]
  · cases probe2 with
    | ok u => simp [sqliteHealthCheck]; omega
    | error e => simp [sqliteHealthCheck]; omega
  · intro e he
    subst he
    simp [sqliteHealthCheck]

/-- Witness for `healthCheck_never_throws`: a never-connected strategy
(probe failure) at clock readings 0 and 5. -/
theorem healthCheck_never_throws_witness :
    (0 : Int) ≤ 5 ∧
    (((pgHealthCheck (.error "no connection") 0 5).latency = 5 - 0 ∧
        0 ≤ (pgHealthCheck (.error "no connection") 0 5).latency ∧
        ∀ e, (Except.error "no connection" : Except String Nat) = .error e →
          (pgHealthCheck (.error "no connection") 0 5).ok = false) ∧
      ((sqliteHealthCheck (.error "no file") 0 5).latency = 5 - 0 ∧
        0 ≤ (sqliteHealthCheck (.error "no file") 0 5).latency ∧
        ∀ e, (Except.error "no file" : Except String Unit) = .error e →
          (sqliteHealthCheck (.error "no file") 0 5).ok = false)) :=
  ⟨by decide,
    healthCheck_never_throws (.error "no connection") (.error "no file") 0 5
      (by decide)⟩

/-- C6 counterexample: on the mock strategy, `on("connect", listener)`
invokes the listener immediately — starting from the initial emitter state
(no transition has occurred), registering handler 0 produces the invocation
log `[0]` and registers nothing, so registration itself does invoke the
handler, contrary to the claim's "for every strategy". -/
theorem mock_on_invokes_on_registration :
    (mockOn "connect" 0 initEmitter).invoked = [0] ∧
    (mockOn "connect" 0 initEmitter).listeners = [] ∧
    initEmitter.invoked = [] := by
  decide

/-- C6 amended: for the EventEmitter-based strategies (Postgres, Mongo,
Sqlite), registering a listener never invokes it, and a handler not yet
registered when an event is emitted receives no invocation from that past
emission (no replay); the mock strategy instead invokes the freshly
registered listener immediately and never registers it. -/
theorem emitter_no_replay :
    (∀ ev hid s, (emitterOn ev hid s).invoked = s.invoked) ∧
    (∀ ev hid s, hid ∉ s.listeners.map Prod.snd →
      (emitterEmit ev s).invoked.count hid = s.invoked.count hid) ∧
    (∀ ev hid s, (mockOn ev hid s).invoked = s.invoked ++ [hid] ∧
      (mockOn ev hid s).listeners = s.listeners) := by
  refine ⟨fun ev hid s => rfl, ?_, fun ev hid s => ⟨rfl, rfl⟩⟩
  intro ev hid s hnot
  have hzero :
      ((s.listeners.filter (fun p => p.1 == ev)).map (·.2)).count hid = 0 := by
    refine List.count_eq_zero.mpr ?_
    intro hmem
    apply hnot
    obtain ⟨p, hp, hp2⟩ := List.mem_map.mp hmem
    exact hp2 ▸ List.mem_map_of_mem _ (List.mem_of_mem_filter hp)
  simp [emitterEmit, List.count_append, hzero]

/-- Witness for `emitter_no_replay`: handler 0 was not registered when the
initial state emitted, so it keeps zero invocations. -/
theorem emitter_no_replay_witness :
    0 ∉ (initEmitter.listeners.map Prod.snd) ∧
    (emitterEmit "connect" initEmitter).invoked.count 0 =
      initEmitter.invoked.count 0 :=
  ⟨by decide, emitter_no_replay.2.1 "connect" 0 initEmitter (by decide)⟩

/-- C7: the mock strategy's `create` assigns each stored record the integer
identifier `length + 1`, scoped per collection and starting at 1: creating
a name-Alice record in `users` and then reading `users` with the empty
filter returns exactly one record, with identifier 1; a second `create` on
the same collection assigns identifier 2; a first `create` on another
collection starts again at 1. -/
theorem mock_create_sequential_ids :
    (∀ db c data, (mockCreate db c data).2 =
      jsSetField data "id" (.num ((dbGet db c).length + 1))) ∧
    getField (mockCreate [] "users" [("name", .str "Alice")]).2 "id" =
      .num 1 ∧
    mockRead (mockCreate [] "users" [("name", .str "Alice")]).1 "users" [] {} =
      .ok [[("name", .str "Alice"), ("id", .num 1)]] ∧
    getField
      (mockCreate (mockCreate [] "users" [("name", .str "Alice")]).1 "users"
        [("name", .str "Bob")]).2 "id" = .num 2 ∧
    getField
      (mockCreate (mockCreate [] "users" [("name", .str "Alice")]).1 "posts"
        [("title", .str "T")]).2 "id" = .num 1 := by
  refine ⟨fun db c data => rfl, ?_, ?_, ?_, ?_⟩ <;> decide

/-- C8: mock `read` returns the records matching the equality conjunction
over the filter, with `slice(offset)` applied before `slice(0, limit)` and
insertion order preserved (no sort requested); invalid options make it fail
with the config error before touching any stored data (the outcome is the
same for every store); and over 5 previously inserted records,
`{limit:2, offset:1}` returns exactly the 2nd and 3rd records in insertion
order. -/
theorem mock_read_window_and_validation :
    (∀ db c query (l off : Int), 0 ≤ l → l ≤ 1000 → 0 ≤ off →
      mockRead db c query { sort := none, limit := some l, offset := some off }
        = .ok ((((dbGet db c).filter fun item =>
            matchesFilter item query).drop off.toNat).take l.toNat)) ∧
    (∀ db db2 c c2 query query2 opts e, validateQueryOptions opts = some e →
      mockRead db c query opts = .error e ∧
      mockRead db c query opts = mockRead db2 c2 query2 opts) ∧
    mockRead
      (mockCreate (mockCreate (mockCreate (mockCreate (mockCreate []
        "users" [("n", .num 1)]).1 "users" [("n", .num 2)]).1 "users"
        [("n", .num 3)]).1 "users" [("n", .num 4)]).1 "users"
        [("n", .num 5)]).1
      "users" [] { sort := none, limit := some 2, offset := some 1 } =
      .ok [[("n", .num 2), ("id", .num 2)], [("n", .num 3), ("id", .num 3)]]
      := by
  refine ⟨?_, ?_, by decide⟩
  · intro db c query l off hl0 hl1 hoff
    have hva : validateQueryOptions
        { sort := none, limit := some l, offset := some off } = none := by
      simp only [validateQueryOptions]
      have h1 : (decide (l < 0) || decide (l > 1000)) = false := by
        simp only [Bool.or_eq_false_iff, decide_eq_false_iff_not]
        omega
      have h2 : decide (off < 0) = false := by
        simp only [decide_eq_false_iff_not]
        omega
      simp [h1, h2]
    simp [mockRead, hva]
  · intro db db2 c c2 query query2 opts e hv
    exact ⟨by simp [mockRead, hv], by simp [mockRead, hv]⟩

/-- Witness for `mock_read_window_and_validation`: the paging conjunct at a
concrete 3-record store and the validation conjunct at a negative offset. -/
theorem mock_read_window_and_validation_witness :
    ((0 : Int) ≤ 2 ∧ (2 : Int) ≤ 1000 ∧ (0 : Int) ≤ 1 ∧
      mockRead [("users", [[("id", Value.num 1)], [("id", Value.num 2)],
          [("id", Value.num 3)]])] "users" []
        { sort := none, limit := some 2, offset := some 1 } =
        .ok ((((dbGet [("users", [[("id", Value.num 1)], [("id", Value.num 2)],
          [("id", Value.num 3)]])] "users").filter fun item =>
            matchesFilter item []).drop (1 : Int).toNat).take
              (2 : Int).toNat)) ∧
    (validateQueryOptions { sort := none, limit := none, offset := some (-1) }
        = some "Invalid offset: must be >= 0" ∧
      mockRead [] "users" []
          { sort := none, limit := none, offset := some (-1) } =
        .error "Invalid offset: must be >= 0") :=
  ⟨⟨by decide, by decide, by decide,
      mock_read_window_and_validation.1 _ "users" [] 2 1 (by decide)
        (by decide) (by decide)⟩,
    ⟨by decide,
      (mock_read_window_and_validation.2.1 [] [] "users" "users" [] []
        { sort := none, limit := none, offset := some (-1) }
        "Invalid offset: must be >= 0" (by decide)).1⟩⟩

/-- C4: `Config.validate` never short-circuits — for every raw config it
collects all violations, one message (naming module and key) per violated
field: the required-field message when the field's `requiredIf` predicate
holds on the raw config while its value is undefined, otherwise the type
message exactly when the value fails the declared type (secret treated as
string, custom accepting any value, and a field with a declared `default`
additionally accepting an undefined value) — and it returns success exactly
when no field is violated, with `errors` carrying the full violation list
otherwise: a message for every violated field is present, and every present
message comes from a violated field. -/
theorem config_validate_collects_all (reg : Registry) (raw : RawConfig) :
    ((validate reg raw).success = true ↔ allViolations reg raw = []) ∧
    (validate reg raw).errors.getD [] = allViolations reg raw ∧
    (∀ m schema k d e, (m, schema) ∈ reg → (k, d) ∈ schema →
      violationMsg raw m k d = some e →
      e ∈ (validate reg raw).errors.getD []) ∧
    (∀ e, e ∈ (validate reg raw).errors.getD [] →
      ∃ m schema k d, (m, schema) ∈ reg ∧ (k, d) ∈ schema ∧
        violationMsg raw m k d = some e) := by
  have hveq := validate_eq reg raw
  by_cases hz : allViolations reg raw = []
  · rw [hz] at hveq
    simp only [List.length_nil, gt_iff_lt, lt_self_iff_false, if_false] at hveq
    refine ⟨?_, ?_, ?_, ?_⟩
    · rw [hveq]; simp [hz]
    · rw [hveq]; simp [hz]
    · intro m schema k d e hm hk hvm
      have := violation_mem_allViolations reg raw m schema k d e hm hk hvm
      rw [hz] at this
      cases this
    · intro e he
      rw [hveq] at he
      simp at he
  · have hlen : (allViolations reg raw).length > 0 := by
      cases hv : allViolations reg raw with
      | nil => exact absurd hv hz
      | cons a rest => simp [hv]
    rw [if_pos hlen] at hveq
    refine ⟨?_, ?_, ?_, ?_⟩
    · rw [hveq]; simp [hz]
    · rw [hveq]; rfl
    · intro m schema k d e hm hk hvm
      rw [hveq]
      exact violation_mem_allViolations reg raw m schema k d e hm hk hvm
    · intro e he
      rw [hveq] at he
      simp only [Option.getD_some] at he
      unfold allViolations getAllSchemas at he
      obtain ⟨entry, hentry, hin⟩ := List.mem_flatMap.mp he
      obtain ⟨kv, hkv, hsome⟩ := List.mem_filterMap.mp hin
      exact ⟨entry.1, entry.2, kv.1, kv.2, hentry, hkv, hsome⟩

/-- Witness for `config_validate_collects_all`: the sample registry's lone
string field has no default and is absent from the empty raw config, so its
type-violation message appears in the returned errors. -/
theorem config_validate_collects_all_witness :
    ("m", [("k", sampleFieldString)]) ∈ sampleRegistry ∧
    ("k", sampleFieldString) ∈ [("k", sampleFieldString)] ∧
    violationMsg [] "m" "k" sampleFieldString = some (typeMsg "m" "k") ∧
    typeMsg "m" "k" ∈ (validate sampleRegistry []).errors.getD [] :=
  ⟨List.mem_singleton.mpr rfl, List.mem_singleton.mpr rfl, rfl,
    (config_validate_collects_all sampleRegistry []).2.2.1 "m"
      [("k", sampleFieldString)] "k" sampleFieldString (typeMsg "m" "k")
      (List.mem_singleton.mpr rfl) (List.mem_singleton.mpr rfl) rfl⟩

/-- C2: `DatabaseStrategyFactory.create` on a builtin engine fails with the
missing-schema error when no field schema is registered for the engine, and
fails with a config-validation error carrying every violated field's message
when validation rejects the config; in both cases (indeed whenever it
errors) the constructed-engines log stays empty — the strategy instance is
never constructed, so no backend call is made. -/
theorem factory_builtin_fails_before_construction (reg : Registry)
    (engine : String) (config : List (String × Value)) :
    (getModuleSchema reg engine = none →
      createBuiltinStrategy reg engine config =
        (.error (.missingSchema engine), [])) ∧
    (∀ schema, getModuleSchema reg engine = some schema →
      (validate reg [(engine, config)]).success = false →
      createBuiltinStrategy reg engine config =
        (.error (.invalidConfig engine
          (allViolations reg [(engine, config)])), [])) ∧
    (∀ err, (createBuiltinStrategy reg engine config).1 = .error err →
      (createBuiltinStrategy reg engine config).2 = []) := by
  refine ⟨?_, ?_, ?_⟩
  · intro hnone
    simp [createBuiltinStrategy, hnone]
  · intro schema hsome hfail
    have hveq := validate_eq reg [(engine, config)]
    by_cases hz : allViolations reg [(engine, config)] = []
    · rw [hz] at hveq
      simp only [List.length_nil, gt_iff_lt, lt_self_iff_false,
        if_false] at hveq
      rw [hveq] at hfail
      cases hfail
    · have hlen : (allViolations reg [(engine, config)]).length > 0 := by
        cases hv : allViolations reg [(engine, config)] with
        | nil => exact absurd hv hz
        | cons a rest => simp [hv]
      rw [if_pos hlen] at hveq
      simp [createBuiltinStrategy, hsome, hveq]
  · intro err herr
    unfold createBuiltinStrategy at herr ⊢
    cases hs : getModuleSchema reg engine with
    | none => simp [hs]
    | some schema =>
        simp only [hs] at herr ⊢
        by_cases hsucc : (validate reg [(engine, config)]).success
        · simp [hsucc] at herr
        · simp [hsucc]

/-- Witness for `factory_builtin_fails_before_construction`: the sample
registry lacks a schema for engine `zzz` (missing-schema failure), and its
module `m` fails validation on the empty config (config-validation failure
listing the violated field); both leave the construction log empty. -/
theorem factory_builtin_fails_witness :
    (getModuleSchema sampleRegistry "zzz" = none ∧
      createBuiltinStrategy sampleRegistry "zzz" [] =
        (.error (.missingSchema "zzz"), [])) ∧
    ((validate sampleRegistry [("m", [])]).success = false ∧
      createBuiltinStrategy sampleRegistry "m" [] =
        (.error (.invalidConfig "m"
          (allViolations sampleRegistry [("m", [])])), [])) :=
  ⟨⟨rfl,
      (factory_builtin_fails_before_construction sampleRegistry "zzz" []).1
        rfl⟩,
    ⟨by decide,
      (factory_builtin_fails_before_construction sampleRegistry "m" []).2.1
        [("k", sampleFieldString)] rfl (by decide)⟩⟩

theorem lookup_cons_self {α : Type} (k : String) (v : α)
    (tail : List (String × α)) : List.lookup k ((k, v) :: tail) = some v := by
  simp [List.lookup]

theorem lookup_cons_ne {α : Type} (k pk : String) (pv : α)
    (tail : List (String × α)) (hkb : (k == pk) = false) :
    List.lookup k ((pk, pv) :: tail) = List.lookup k tail := by
  simp [List.lookup, hkb]

theorem lookup_map_replace {α : Type} (k : String) (v : α) :
    ∀ l : List (String × α), l.any (fun p => p.1 == k) = true →
      (l.map fun p => if p.1 == k then (p.1, v) else p).lookup k = some v := by
  intro l
  induction l with
  | nil => intro h; cases h
  | cons p rest ih =>
      intro hany
      obtain ⟨pk, pv⟩ := p
      by_cases hp : pk = k
      · subst hp
        simp only [List.map_cons, if_pos (beq_self_eq_true pk)]
        exact lookup_cons_self pk v _
      · have hpb : (pk == k) = false := beq_eq_false_iff_ne.mpr hp
        have hkb : (k == pk) = false := beq_eq_false_iff_ne.mpr (Ne.symm hp)
        simp only [List.any_cons, hpb, Bool.false_or] at hany
        simp only [List.map_cons]
        rw [if_neg (by simp [hpb]), lookup_cons_ne k pk pv _ hkb]
        exact ih hany

theorem lookup_append_fresh {α : Type} (k : String) (v : α) :
    ∀ l : List (String × α), l.any (fun p => p.1 == k) = false →
      (l ++ [(k, v)]).lookup k = some v := by
  intro l
  induction l with
  | nil =>
      intro _
      simp [List.lookup]
  | cons p rest ih =>
      intro hany
      obtain ⟨pk, pv⟩ := p
      simp only [List.any_cons, Bool.or_eq_false_iff] at hany
      have hkb : (k == pk) = false := by
        cases h : k == pk
        · rfl
        · have hke : k = pk := beq_iff_eq.mp h
          rw [hke, beq_self_eq_true] at hany
          exact absurd hany.1 (by simp)
      simp only [List.cons_append]
      rw [lookup_cons_ne k pk pv _ hkb]
      exact ih hany.2

theorem lookup_mapSet {α : Type} (l : List (String × α)) (k : String)
    (v : α) : (mapSet l k v).lookup k = some v := by
  unfold mapSet
  split
  case isTrue hany => exact lookup_map_replace k v l hany
  case isFalse hany =>
    refine lookup_append_fresh k v l ?_
    cases h : l.any fun p => p.1 == k
    · rfl
    · exact absurd h hany

/-- C3: for every custom engine name (one carrying the `custom:` prefix)
not yet present in the registry, the first `registerCustomEngine` call
succeeds and stores the registration under that name, and a second call
with the same name fails with the duplicate-registration error — returning
no new registry state, so the entry written by the first call stands
unchanged (the registry is write-once per name). -/
theorem register_custom_engine_write_once (customs : CustomRegistry)
    (name : String) (cfg cfg2 : CustomStrategyConfig)
    (hpre : jsStartsWith name "custom:" = true)
    (hnew : customs.lookup name = none) :
    ∃ customs2, registerCustomEngine customs name cfg = .ok customs2 ∧
      customs2.lookup name = some cfg ∧
      registerCustomEngine customs2 name cfg2 =
        .error (.duplicateRegistration name) := by
  refine ⟨mapSet customs name cfg, ?_, lookup_mapSet customs name cfg, ?_⟩
  · unfold registerCustomEngine hasEngine
    simp [hpre, hnew]
  · unfold registerCustomEngine hasEngine
    simp [hpre, lookup_mapSet customs name cfg]

/-- Witness for `register_custom_engine_write_once` at the fresh name
`custom:foo` over the empty registry. -/
theorem register_custom_engine_write_once_witness :
    ∃ customs2,
      registerCustomEngine [] "custom:foo" { strategyClass := 1 } =
        .ok customs2 ∧
      customs2.lookup "custom:foo" = some { strategyClass := 1 } ∧
      registerCustomEngine customs2 "custom:foo" { strategyClass := 2 } =
        .error (.duplicateRegistration "custom:foo") :=
  register_custom_engine_write_once [] "custom:foo" { strategyClass := 1 }
    { strategyClass := 2 } (by decide) rfl

/-- C5 counterexample: the sample registry's module `m` declares a string
field with neither `envVar` nor `default` (the spec's `FieldDefinition`
invariant explicitly allows this).  The resolver yields a config whose
value for `k` is `undefined`, whose runtime type does not match the
declared type `string` — so the claim's final conjunct (each value's
runtime type matches its declared type) fails on the code. -/
theorem resolver_undefined_type_counterexample :
    loadResolvedConfigForModule sampleRegistry (fun _ => none) "m" =
      .ok [("k", Value.undefined)] ∧
    sampleFieldString.type = FieldType.string ∧
    runtimeTypeMatches FieldType.string Value.undefined = false := by
  exact ⟨rfl, rfl, rfl⟩

/-- C5 amended: for every registered module schema, the resolver produces a
config whose key list equals the schema's key list, where each field's
value is the environment string coerced per the declared type when its
`envVar` resolves in the environment (number → numeric parse, boolean →
equality with the literal `"true"`, secret/string/custom → the raw string),
otherwise the field's default verbatim when present, otherwise undefined —
and every value coerced from the environment has a runtime type matching
the declared field type (values falling back to the default keep the
default's own type, and a field with neither resolves to undefined, whose
runtime type matches no declared type but `custom`). -/
theorem resolver_keys_and_env_types (reg : Registry)
    (env : String → Option String) (engine : String) (schema : ModuleSchema)
    (hs : getModuleSchema reg engine = some schema) :
    ∃ cfg, loadResolvedConfigForModule reg env engine = .ok cfg ∧
      cfg.map Prod.fst = schema.map Prod.fst ∧
      (∀ kv ∈ schema, ∀ s, envRawValue kv.2 env = some s →
        (kv.1, coerceEnvValue kv.2.type s) ∈ cfg ∧
        runtimeTypeMatches kv.2.type (coerceEnvValue kv.2.type s) = true) ∧
      (∀ kv ∈ schema, envRawValue kv.2 env = none →
        (kv.1, kv.2.default.getD Value.undefined) ∈ cfg) := by
  refine ⟨schema.map fun kv =>
    match envRawValue kv.2 env with
    | some s => (kv.1, coerceEnvValue kv.2.type s)
    | none =>
        match kv.2.default with
        | some dflt => (kv.1, dflt)
        | none => (kv.1, Value.undefined), ?_, ?_, ?_, ?_⟩
  · simp [loadResolvedConfigForModule, hs]
  · rw [List.map_map]
    refine List.map_congr_left ?_
    intro kv _
    cases henv : envRawValue kv.2 env with
    | some s => simp [henv]
    | none => cases hd : kv.2.default <;> simp [henv, hd]
  · intro kv hkv s henv
    constructor
    · have hmem := List.mem_map_of_mem (fun kv =>
        match envRawValue kv.2 env with
        | some s => (kv.1, coerceEnvValue kv.2.type s)
        | none =>
            match kv.2.default with
            | some dflt => (kv.1, dflt)
            | none => (kv.1, Value.undefined)) hkv
      simp only [henv] at hmem
      exact hmem
    · cases ht : kv.2.type with
      | number =>
          simp only [coerceEnvValue, jsToNumber]
          cases hi : s.toInt? with
          | some n => simp [runtimeTypeMatches]
          | none =>
              by_cases hw : s.trim == ""
              · simp [hw, runtimeTypeMatches]
              · simp only [hw, Bool.false_eq_true, if_false]
                rfl
      | boolean => simp [coerceEnvValue, runtimeTypeMatches]
      | string => simp [coerceEnvValue, runtimeTypeMatches]
      | secret => simp [coerceEnvValue, runtimeTypeMatches]
      | custom => simp [coerceEnvValue, runtimeTypeMatches]
  · intro kv hkv henv
    have hmem := List.mem_map_of_mem (fun kv =>
      match envRawValue kv.2 env with
      | some s => (kv.1, coerceEnvValue kv.2.type s)
      | none =>
          match kv.2.default with
          | some dflt => (kv.1, dflt)
          | none => (kv.1, Value.undefined)) hkv
    simp only [henv] at hmem
    cases hd : kv.2.default with
    | some dflt => simpa [hd] using hmem
    | none => simpa [hd] using hmem

/-- Witness for `resolver_keys_and_env_types` on the sample postgres-like
registry: `host` resolves from the environment as a string, `port` falls
back to its numeric default. -/
theorem resolver_keys_and_env_types_witness :
    ∃ cfg, loadResolvedConfigForModule samplePgRegistry sampleEnv "postgres"
        = .ok cfg ∧
      cfg.map Prod.fst = samplePgSchema.map Prod.fst ∧
      (∀ kv ∈ samplePgSchema,
        ∀ s, envRawValue kv.2 sampleEnv = some s →
        (kv.1, coerceEnvValue kv.2.type s) ∈ cfg ∧
        runtimeTypeMatches kv.2.type (coerceEnvValue kv.2.type s) = true) ∧
      (∀ kv ∈ samplePgSchema, envRawValue kv.2 sampleEnv = none →
        (kv.1, kv.2.default.getD Value.undefined) ∈ cfg) :=
  resolver_keys_and_env_types samplePgRegistry sampleEnv "postgres"
    samplePgSchema rfl

/-- C10 counterexample: module `other` is registered with field `f`, which
has no default and is absent from the empty raw config — yet
`Config.validate` returns success with no error at all, because `f` is
declared with type `custom` and the zod `z.any()` schema accepts the
undefined value.  So absent no-default fields of other modules do not
always contribute error messages, contrary to the claim. -/
theorem validate_absent_custom_field_counterexample :
    (getModuleSchema customFieldRegistry "other").isSome = true ∧
    validate customFieldRegistry [] = { success := true, errors := none } := by
  exact ⟨rfl, by decide⟩

/-- C10 amended: `Config.validate` checks every module schema in the global
registry on each call, not only the modules present in the supplied raw
config: any field of any registered module that has no default, is absent
from the raw config, and whose declared type is not `custom` contributes an
error message to the result (a required-field or a type message for that
module and key), making validation fail. -/
theorem validate_checks_all_registered_modules (reg : Registry)
    (raw : RawConfig) (m : String) (schema : ModuleSchema) (k : String)
    (d : FieldDef) (hm : (m, schema) ∈ reg) (hk : (k, d) ∈ schema)
    (habsent : rawGet raw m k = .undefined) (hnodef : d.default = none)
    (hnc : d.type ≠ FieldType.custom) :
    (validate reg raw).success = false ∧
    ∃ e, violationMsg raw m k d = some e ∧
      (e = requiredMsg m k ∨ e = typeMsg m k) ∧
      e ∈ (validate reg raw).errors.getD [] := by
  have hzod : zodBaseAccepts d.type Value.undefined = false := by
    cases ht : d.type
    · rfl
    · rfl
    · rfl
    · rfl
    · exact absurd ht hnc
  have hsome : ∃ e, violationMsg raw m k d = some e ∧
      (e = requiredMsg m k ∨ e = typeMsg m k) := by
    unfold violationMsg
    rw [habsent]
    by_cases hr : requiredIfHolds d raw
    · exact ⟨requiredMsg m k, by simp [hr], Or.inl rfl⟩
    · refine ⟨typeMsg m k, ?_, Or.inr rfl⟩
      simp [hr, hnodef, hzod]
  obtain ⟨e, hve, hshape⟩ := hsome
  have hmem : e ∈ allViolations reg raw :=
    violation_mem_allViolations reg raw m schema k d e hm hk hve
  have hnz : allViolations reg raw ≠ [] := by
    intro hz
    rw [hz] at hmem
    cases hmem
  have hlen : (allViolations reg raw).length > 0 := by
    cases hv : allViolations reg raw with
    | nil => exact absurd hv hnz
    | cons a rest => simp [hv]
  have hveq := validate_eq reg raw
  rw [if_pos hlen] at hveq
  refine ⟨by rw [hveq], e, hve, hshape, ?_⟩
  rw [hveq]
  exact hmem

/-- Witness for `validate_checks_all_registered_modules`: validating a raw
config that only mentions module `db` still reports the violated string
field `req` of the registered module `other`. -/
theorem validate_checks_all_registered_modules_witness :
    (validate otherModuleRegistry [("db", [])]).success = false ∧
    ∃ e, violationMsg [("db", [])] "other" "req"
        { key := "req", type := FieldType.string } = some e ∧
      (e = requiredMsg "other" "req" ∨ e = typeMsg "other" "req") ∧
      e ∈ (validate otherModuleRegistry [("db", [])]).errors.getD [] :=
  validate_checks_all_registered_modules otherModuleRegistry [("db", [])]
    "other" [("req", { key := "req", type := FieldType.string })] "req"
    { key := "req", type := FieldType.string }
    (List.mem_singleton.mpr rfl) (List.mem_singleton.mpr rfl) rfl rfl
    (by decide)

end Shikor
